import Mathlib

/-!
# Verification of the lexer and expression folder of a Lox front end

Shallow embedding of the Rust sources:
* `src/lexer/tokens.rs` — token model and per-category scanners,
* `src/lexer/mod.rs`    — the `Lexer::tokenize` driver loop,
* `src/parser/expr.rs`  — expression tree, value conversion, printer,
* `src/parser/mod.rs`   — the expression-folding `Parser`.

Rust `Vec<char>` slices become `List Char`; `usize` becomes `Nat`
(`u32` arithmetic in number parsing wraps modulo `2 ^ 32`, matching
release-mode Rust); `AppResult<T>` (an `anyhow::Result`) becomes
`Except`-style sums, with `unreachable!`/`todo!` panics modelled as
error outcomes.  Rust `String::len` is a UTF-8 *byte* count, embedded
here as `strByteLen`, distinct from the character count of a slice.
-/

/-- UTF-8 byte length of a character list, mirroring Rust `String::len`. -/
def strByteLen (l : List Char) : Nat :=
  (l.map Char.utf8Size).sum

/-- `char::to_digit(10).unwrap()` for an ASCII digit. -/
def charToDigit (c : Char) : Nat :=
  c.toNat - 48

/-- The digit-accumulation fold of `NumberToken::from_char_slice`:
`raw.iter().rev().enumerate().map(|(idx, i)| i * 10u32.pow(idx)).fold(0, |acc, x| acc + x)`
with `u32` wrapping arithmetic. -/
def u32DigitsFold (ds : List Nat) : Nat :=
  (ds.reverse.enum.map (fun p => p.2 * (10 ^ p.1 % 4294967296) % 4294967296)).foldl
    (fun a x => (a + x) % 4294967296) 0

/-- The character class accepted inside identifiers
(`IdentifierToken::from_char_slice`'s `take_while` predicate). -/
def isIdentChar (x : Char) : Bool :=
  (('a' ≤ x && x ≤ 'z') || ('A' ≤ x && x ≤ 'Z') || ('0' ≤ x && x ≤ '9') || x = '_')

/-- `AppError` from `src/errors.rs`. -/
inductive AppError where
  | UnexpectedCharE (line : Nat) (token : String)
  | UnterminatedString (line : Nat)
deriving DecidableEq, Repr

/-- `SingleCharToken` from `src/lexer/tokens.rs`. -/
inductive SingleCharToken where
  | LeftParen | RightParen | LeftBrace | RightBrace
  | Star | Dot | Comma | Plus | Minus | Slash
  | Semicolon | Assign | Bang | Less | Greater
deriving DecidableEq, Repr

/-- `SingleCharToken::from_char_slice` (always returns `Ok` in the source). -/
def SingleCharToken.from_char_slice (s : List Char) : Option SingleCharToken :=
  match s.head? with
  | none => none
  | some ch =>
    match ch with
    | '(' => some .LeftParen
    | ')' => some .RightParen
    | '{' => some .LeftBrace
    | '}' => some .RightBrace
    | '*' => some .Star
    | '.' => some .Dot
    | ',' => some .Comma
    | '+' => some .Plus
    | '-' => some .Minus
    | '/' => some .Slash
    | ';' => some .Semicolon
    | '=' => some .Assign
    | '!' => some .Bang
    | '<' => some .Less
    | '>' => some .Greater
    | _ => none

/-- `SingleCharToken::length`: always 1. -/
def SingleCharToken.length (_ : SingleCharToken) : Nat := 1

/-- `IgnoredToken` from `src/lexer/tokens.rs`; `Comment` holds the
comment length till the end of the current line. -/
inductive IgnoredToken where
  | LineBreak
  | Comment (len : Nat)
  | Tab
  | Space
deriving DecidableEq, Repr

/-- `IgnoredToken::from_char_slice`. -/
def IgnoredToken.from_char_slice (s : List Char) : Option IgnoredToken :=
  match s.head?, s.get? 1 with
  | some '\n', _ => some .LineBreak
  | some '\t', _ => some .Tab
  | some ' ', _ => some .Space
  | some '/', some '/' =>
    some (.Comment ((s.findIdx? (fun x => x = '\n')).getD s.length))
  | _, _ => none

/-- `IgnoredToken::length`. -/
def IgnoredToken.length : IgnoredToken → Nat
  | .LineBreak => 1
  | .Comment len => len
  | .Tab => 1
  | .Space => 1

/-- `MultiCharToken` from `src/lexer/tokens.rs`. -/
inductive MultiCharToken where
  | EqualEqual | BangEqual | LessEqual | GreaterEqual
deriving DecidableEq, Repr

/-- `MultiCharToken::from_char_slice`. -/
def MultiCharToken.from_char_slice (s : List Char) : Option MultiCharToken :=
  match s.head?, s.get? 1 with
  | some '=', some '=' => some .EqualEqual
  | some '!', some '=' => some .BangEqual
  | some '<', some '=' => some .LessEqual
  | some '>', some '=' => some .GreaterEqual
  | _, _ => none

/-- `MultiCharToken::length`: always 2. -/
def MultiCharToken.length (_ : MultiCharToken) : Nat := 2

/-- `StringToken` from `src/lexer/tokens.rs`: the unquoted content. -/
structure StringToken where
  content : List Char
deriving DecidableEq, Repr

/-- `StringToken::from_char_slice`: an opening `"` with no closing `"`
is the only `Err` the token layer can produce. -/
def StringToken.from_char_slice (s : List Char) (line : Nat) :
    Except AppError (Option StringToken) :=
  match s.head? with
  | some v =>
    if v = '"' then
      match (s.drop 1).findIdx? (fun x => x = '"') with
      | some v2 => .ok (some ⟨(s.drop 1).take v2⟩)
      | none => .error (.UnterminatedString line)
    else .ok none
  | none => .ok none

/-- `StringToken::length`: `self.0.len() + 2` — a UTF-8 **byte** count
of the content plus the two quotes. -/
def StringToken.length (t : StringToken) : Nat :=
  strByteLen t.content + 2

/-- `NumberToken` from `src/lexer/tokens.rs`.  `decimal` holds the
original decimal digit string and its computed `u32` value. -/
structure NumberToken where
  integer : Nat
  integer_length : Nat
  decimal : Option (List Char × Nat)
deriving DecidableEq, Repr

/-- `NumberToken::from_char_slice`. -/
def NumberToken.from_char_slice (s : List Char) : Option NumberToken :=
  match s with
  | [] => none
  | c :: _ =>
    if ¬ c.isDigit then none
    else
      let rawIntegerChars := (s.takeWhile Char.isDigit).map charToDigit
      let integer := u32DigitsFold rawIntegerChars
      let afterInt := s.drop rawIntegerChars.length
      match afterInt.head? with
      | some v =>
        if v = '.' then
          let rawDecimalChars := ((afterInt.drop 1).takeWhile Char.isDigit).map charToDigit
          if rawDecimalChars.isEmpty then
            some ⟨integer, rawIntegerChars.length, none⟩
          else
            some ⟨integer, rawIntegerChars.length,
              some (rawDecimalChars.map Nat.digitChar, u32DigitsFold rawDecimalChars)⟩
        else
          some ⟨integer, rawIntegerChars.length, none⟩
      | none => some ⟨integer, rawIntegerChars.length, none⟩

/-- `NumberToken::length`. -/
def NumberToken.length (t : NumberToken) : Nat :=
  match t.decimal with
  | some (l, _) => t.integer_length + 1 + strByteLen l
  | none => t.integer_length

/-- `NumberToken::info`: kind name, lexeme, canonical value text. -/
def NumberToken.info (t : NumberToken) : String × String × Option String :=
  let value := Nat.repr t.integer ++
    (match t.decimal with
     | some (l, _) => "." ++ String.mk l
     | none => "")
  let r := match t.decimal with
    | some (_, f) => Nat.repr t.integer ++ "." ++ Nat.repr f
    | none => Nat.repr t.integer ++ ".0"
  ("NUMBER", value, some r)

/-- `NumberToken::info_string`: `self.info().2.unwrap()` (always `Some`). -/
def NumberToken.info_string (t : NumberToken) : String :=
  t.info.2.2.getD ""

/-- `IdentifierToken` from `src/lexer/tokens.rs`. -/
structure IdentifierToken where
  content : List Char
deriving DecidableEq, Repr

/-- `IdentifierToken::from_char_slice`. -/
def IdentifierToken.from_char_slice (s : List Char) : Option IdentifierToken :=
  match s with
  | [] => none
  | _ :: _ =>
    match s.takeWhile isIdentChar with
    | [] => none
    | c0 :: tl => if ¬ c0.isDigit then some ⟨c0 :: tl⟩ else none

/-- `IdentifierToken::length` (`String::len` byte count; identifier
characters are ASCII, so it coincides with the character count). -/
def IdentifierToken.length (t : IdentifierToken) : Nat :=
  strByteLen t.content

/-- `KeywordToken` from `src/lexer/tokens.rs`. -/
inductive KeywordToken where
  | KAnd | KClass | KElse | KFalse | KFor | KFun | KIf | KNil
  | KOr | KPrint | KReturn | KSuper | KThis | KTrue | KVar | KWhile
deriving DecidableEq, Repr

/-- `KeywordToken::from_char_slice`: compares the first up-to-six
characters of the slice against each keyword's spelling, in source
order.  Note the comparisons look only at the **prefix** of the slice. -/
def KeywordToken.from_char_slice (s : List Char) : Option KeywordToken :=
  let s0 := s.get? 0
  let s1 := s.get? 1
  let s2 := s.get? 2
  let s3 := s.get? 3
  let s4 := s.get? 4
  let s5 := s.get? 5
  if s0 = some 'a' ∧ s1 = some 'n' ∧ s2 = some 'd' then some .KAnd
  else if s0 = some 'c' ∧ s1 = some 'l' ∧ s2 = some 'a' ∧ s3 = some 's' ∧ s4 = some 's' then
    some .KClass
  else if s0 = some 'e' ∧ s1 = some 'l' ∧ s2 = some 's' ∧ s3 = some 'e' then some .KElse
  else if s0 = some 'f' ∧ s1 = some 'a' ∧ s2 = some 'l' ∧ s3 = some 's' ∧ s4 = some 'e' then
    some .KFalse
  else if s0 = some 'f' ∧ s1 = some 'o' ∧ s2 = some 'r' then some .KFor
  else if s0 = some 'f' ∧ s1 = some 'u' ∧ s2 = some 'n' then some .KFun
  else if s0 = some 'i' ∧ s1 = some 'f' then some .KIf
  else if s0 = some 'n' ∧ s1 = some 'i' ∧ s2 = some 'l' then some .KNil
  else if s0 = some 'o' ∧ s1 = some 'r' then some .KOr
  else if s0 = some 'p' ∧ s1 = some 'r' ∧ s2 = some 'i' ∧ s3 = some 'n' ∧ s4 = some 't' then
    some .KPrint
  else if s0 = some 'r' ∧ s1 = some 'e' ∧ s2 = some 't' ∧ s3 = some 'u' ∧ s4 = some 'r' ∧
      s5 = some 'n' then some .KReturn
  else if s0 = some 's' ∧ s1 = some 'u' ∧ s2 = some 'p' ∧ s3 = some 'e' ∧ s4 = some 'r' then
    some .KSuper
  else if s0 = some 't' ∧ s1 = some 'h' ∧ s2 = some 'i' ∧ s3 = some 's' then some .KThis
  else if s0 = some 't' ∧ s1 = some 'r' ∧ s2 = some 'u' ∧ s3 = some 'e' then some .KTrue
  else if s0 = some 'v' ∧ s1 = some 'a' ∧ s2 = some 'r' then some .KVar
  else if s0 = some 'w' ∧ s1 = some 'h' ∧ s2 = some 'i' ∧ s3 = some 'l' ∧ s4 = some 'e' then
    some .KWhile
  else none

/-- `KeywordToken::length`. -/
def KeywordToken.length : KeywordToken → Nat
  | .KAnd => 3
  | .KClass => 5
  | .KElse => 4
  | .KFalse => 5
  | .KFor => 3
  | .KFun => 3
  | .KIf => 2
  | .KNil => 3
  | .KOr => 2
  | .KPrint => 5
  | .KReturn => 6
  | .KSuper => 5
  | .KThis => 4
  | .KTrue => 4
  | .KVar => 3
  | .KWhile => 5

/-- `Token` from `src/lexer/tokens.rs`. -/
inductive Token where
  | SingleCharacter (t : SingleCharToken)
  | MultiCharTokenT (t : MultiCharToken)
  | Ignored (t : IgnoredToken)
  | String (t : StringToken)
  | Number (t : NumberToken)
  | Identifier (t : IdentifierToken)
  | Keyword (t : KeywordToken)
deriving DecidableEq, Repr

/-- `Token::try_consume`: categories tried in source order
(keyword, string, number, identifier, multi-char, ignorable,
single-char); only the string scanner can fail. -/
def Token.try_consume (s : List Char) (line : Nat) :
    Except AppError (Option Token) :=
  if s.isEmpty then .ok none
  else
    match KeywordToken.from_char_slice s with
    | some v => .ok (some (.Keyword v))
    | none =>
      match StringToken.from_char_slice s line with
      | .error e => .error e
      | .ok (some v) => .ok (some (.String v))
      | .ok none =>
        match NumberToken.from_char_slice s with
        | some v => .ok (some (.Number v))
        | none =>
          match IdentifierToken.from_char_slice s with
          | some v => .ok (some (.Identifier v))
          | none =>
            match MultiCharToken.from_char_slice s with
            | some v => .ok (some (.MultiCharTokenT v))
            | none =>
              match IgnoredToken.from_char_slice s with
              | some v => .ok (some (.Ignored v))
              | none =>
                match SingleCharToken.from_char_slice s with
                | some v => .ok (some (.SingleCharacter v))
                | none => .ok none

/-- `Token::ignored`. -/
def Token.ignored : Token → Bool
  | .Ignored _ => true
  | _ => false

/-- `Token::length`. -/
def Token.length : Token → Nat
  | .SingleCharacter v => v.length
  | .MultiCharTokenT v => v.length
  | .Ignored v => v.length
  | .String v => v.length
  | .Number v => v.length
  | .Identifier v => v.length
  | .Keyword v => v.length

/-- `Token::is_string`. -/
def Token.is_string : Token → Bool
  | .String _ => true
  | _ => false

/-- `Token::is_number`. -/
def Token.is_number : Token → Bool
  | .Number _ => true
  | _ => false

/-- `Token::is_string_or_number`. -/
def Token.is_string_or_number (t : Token) : Bool :=
  t.is_string || t.is_number

/-- `Token::is_binary_op`. -/
def Token.is_binary_op : Token → Bool
  | .SingleCharacter v =>
    match v with
    | .Star | .Plus | .Minus | .Slash | .Assign | .Less | .Greater => true
    | _ => false
  | .MultiCharTokenT _ => true
  | _ => false

/-- `Token::is_unary_op`. -/
def Token.is_unary_op : Token → Bool
  | .SingleCharacter v =>
    match v with
    | .Minus | .Bang => true
    | _ => false
  | _ => false

/-- The observable state of a `Lexer` after `tokenize` returns:
the retained (non-ignorable) tokens, the recoverable diagnostics
printed to stderr, the `has_error` flag, and the fatal error returned
by `tokenize` (`none` models `Ok(())`). -/
structure LexOutcome where
  tokens : List Token
  diags : List AppError
  hasError : Bool
  result : Option AppError
deriving DecidableEq, Repr

/-- The scan loop of `Lexer::tokenize`, indexed by a fuel bound on the
number of iterations.  Each iteration consumes at least one character
(`Token.try_consume_length_pos`), so `s.length` iterations always
suffice; `Lexer.tokenizeFuel_congr` shows the bound is immaterial from
`s.length` on, making this a faithful rendering of the `while` loop. -/
def Lexer.tokenizeFuel : Nat → List Char → Nat → List Token → List AppError → Bool → LexOutcome
  | 0, _, _, tokens, diags, hasError => ⟨tokens, diags, hasError, none⟩
  | _ + 1, [], _, tokens, diags, hasError => ⟨tokens, diags, hasError, none⟩
  | fuel + 1, ch :: rest, line, tokens, diags, hasError =>
    match Token.try_consume (ch :: rest) line with
    | .error e => ⟨tokens, diags, hasError, some e⟩
    | .ok (some t) =>
      Lexer.tokenizeFuel fuel ((ch :: rest).drop t.length)
        (if t = .Ignored .LineBreak then line + 1 else line)
        (if t.ignored then tokens else tokens ++ [t]) diags hasError
    | .ok none =>
      Lexer.tokenizeFuel fuel rest line tokens
        (diags ++ [.UnexpectedCharE line (String.mk [ch])]) true

/-- `Lexer::tokenize` run on a fresh lexer (`pos = 0`, `line_idx = 1`,
empty token list, no error). -/
def Lexer.tokenize (input : List Char) : LexOutcome :=
  Lexer.tokenizeFuel input.length input 1 [] [] false

/-- `BinaryOp` from `src/parser/expr.rs`. -/
inductive BinaryOp where
  | Plus | Minus | Multiply | Divide
deriving DecidableEq, Repr

/-- `BinaryOp::literal`. -/
def BinaryOp.literal : BinaryOp → String
  | .Plus => "+"
  | .Minus => "-"
  | .Multiply => "*"
  | .Divide => "/"

/-- `TryFrom<&Token> for BinaryOp`; `unreachable!`/`todo!` panics are
modelled as `.error`. -/
def BinaryOp.tryFrom (value : Token) : Except String BinaryOp :=
  match value with
  | .SingleCharacter s =>
    match s with
    | .Star => .ok .Multiply
    | .Plus => .ok .Plus
    | .Minus => .ok .Minus
    | .Slash => .ok .Divide
    | .Less => .error "todo"
    | .Greater => .error "todo"
    | _ => .error "unreachable: check before convert"
  | .MultiCharTokenT _ => .error "todo"
  | _ => .error "unreachable: check before convert"

/-- `UnaryOp` from `src/parser/expr.rs`. -/
inductive UnaryOp where
  | Negation | LogicalNot
deriving DecidableEq, Repr

/-- `UnaryOp::literal`. -/
def UnaryOp.literal : UnaryOp → String
  | .Negation => "-"
  | .LogicalNot => "!"

/-- `TryFrom<&Token> for UnaryOp`. -/
def UnaryOp.tryFrom (value : Token) : Except String UnaryOp :=
  match value with
  | .SingleCharacter s =>
    match s with
    | .Minus => .ok .Negation
    | .Bang => .ok .LogicalNot
    | _ => .error "unreachable: check before convert"
  | _ => .error "unreachable: check before convert"

/-- `Value` from `src/parser/expr.rs`.  The Rust `Number` variant also
carries the `f64` machine value (`as_f64`); only the `info` text is
ever read (by the printer), so the float field is not modelled. -/
inductive Value where
  | Number (info : String)
  | StringV (value : String) (info : String)
  | Bool (b : Bool)
  | Nil
deriving DecidableEq, Repr

/-- `Value::literal`. -/
def Value.literal : Value → String
  | .Number info => info
  | .StringV _ info => info
  | .Bool v => cond v "true" "false"
  | .Nil => "nil"

/-- `TryFrom<&Token> for Value`. -/
def Value.tryFrom (value : Token) : Except String Value :=
  match value with
  | .String s => .ok (.StringV (String.mk s.content) (String.mk s.content))
  | .Number n => .ok (.Number n.info_string)
  | .Keyword k =>
    match k with
    | .KFalse => .ok (.Bool false)
    | .KNil => .ok .Nil
    | .KTrue => .ok (.Bool true)
    | _ => .error "todo"
  | _ => .error "invalid value"

/-- `ScopeType` from `src/parser/expr.rs`. -/
inductive ScopeType where
  | Paren
deriving DecidableEq, Repr

/-- `Expr` from `src/parser/expr.rs`; the `Scope` struct
(`scope_type` plus optional inner expression) is inlined as
constructor arguments. -/
inductive Expr where
  | Binary (op : BinaryOp) (lhs : Expr) (rhs : Expr)
  | Value (v : Value)
  | Scope (scope_type : ScopeType) (expr : Option Expr)
  | Unary (op : UnaryOp) (operand : Expr)
deriving Repr

/-- `Expr::literal`, together with `Scope::literal`. -/
def Expr.literal : Expr → String
  | .Binary op lhs rhs =>
    "(" ++ op.literal ++ " " ++ lhs.literal ++ " " ++ rhs.literal ++ ")"
  | .Value v => v.literal
  | .Scope .Paren e =>
    "(group " ++ (match e with | some x => x.literal | none => "") ++ ")"
  | .Unary op operand => "(" ++ op.literal ++ " " ++ operand.literal ++ ")"

/-- `Expr::new_value`. -/
def Expr.new_value (v : Token) : Except String Expr :=
  match Value.tryFrom v with
  | .ok value => .ok (.Value value)
  | .error e => .error e

/-- `Expr::new_binary`: both operands are converted from tokens. -/
def Expr.new_binary (op : BinaryOp) (lhs rhs : Option Token) : Except String Expr :=
  match lhs with
  | none => .error "lhs is null"
  | some l =>
    match rhs with
    | none => .error "lhs is null"
    | some r =>
      match Expr.new_value l with
      | .error e => .error e
      | .ok le =>
        match Expr.new_value r with
        | .error e => .error e
        | .ok re => .ok (.Binary op le re)

/-- `Expr::new_scope` (always `Ok` in the source). -/
def Expr.new_scope (scope_type : ScopeType) (expr : Option Expr) : Except String Expr :=
  .ok (.Scope scope_type expr)

/-- `Expr::new_unary`: the operand is converted from a token. -/
def Expr.new_unary (unary_type : UnaryOp) (operand : Option Token) : Except String Expr :=
  match operand with
  | none => .error "operand is null"
  | some o =>
    match Expr.new_value o with
    | .error e => .error e
    | .ok oe => .ok (.Unary unary_type oe)

/-- `Parser::parse_expr`.  The `&mut Vec<&Token>` buffer of pending
tokens is threaded explicitly and stored most-recent-first, so Rust
`push`/`pop`/`last()` become `cons`/`tail`/`head?`, and
`iter().rev().nth(1)` is the head of the tail.  Returns the optional
folded expression, the consumed step, and the updated buffer.  Rust
panics (`tokens[0]` on an empty slice, `todo!`, a failing `unwrap`)
are modelled as `.error` outcomes. -/
def Parser.parse_expr (tokens : List Token) (parsedTokens : List Token) :
    Except String (Option Expr × Nat × List Token) :=
  match tokens with
  | [] => .error "panic: index out of bounds"
  | t :: rest =>
    match t with
    | .SingleCharacter sc =>
      match sc with
      | .LeftParen =>
        match Parser.parse_expr rest [] with
        | .error e => .error e
        | .ok (parsedExpr, step, innerBuf) =>
          if ¬ innerBuf.isEmpty then .error "token left in paren"
          else
            match tokens.get? (1 + step) with
            | some v =>
              if v = .SingleCharacter .RightParen then
                .ok (some (.Scope .Paren parsedExpr), step + 1 + 1, parsedTokens)
              else .error "paren not ended"
            | none => .error "paren not ended"
      | .RightParen => .ok (none, 1, parsedTokens)
      | .Plus => .ok (none, 1, t :: parsedTokens)
      | .Minus => .ok (none, 1, t :: parsedTokens)
      | .Bang => .ok (none, 1, t :: parsedTokens)
      | _ => .error "todo"
    | .MultiCharTokenT _ => .ok (none, 1, t :: parsedTokens)
    | .Ignored _ => .ok (none, 1, parsedTokens)
    | .String _ | .Number _ =>
      match parsedTokens with
      | v :: buf1 =>
        if v.is_binary_op && (match buf1.head? with
            | some l => l.is_string_or_number
            | none => false) then
          match BinaryOp.tryFrom v with
          | .error e => .error ("panic: " ++ e)
          | .ok op =>
            match Expr.new_binary op buf1.head? (some t) with
            | .error e => .error e
            | .ok expr => .ok (some expr, 1, buf1.tail)
        else if v.is_unary_op then
          match UnaryOp.tryFrom v with
          | .error e => .error ("panic: " ++ e)
          | .ok op =>
            match Expr.new_unary op (some t) with
            | .error e => .error e
            | .ok expr => .ok (some expr, 1, buf1)
        else .error "adjacent token before string/number is not BinaryOp"
      | [] =>
        match Expr.new_value t with
        | .error e => .error e
        | .ok expr => .ok (some expr, 1, parsedTokens)
    | .Identifier _ => .error "todo"
    | .Keyword k =>
      match k with
      | .KFalse | .KTrue =>
        match parsedTokens with
        | v :: buf1 =>
          if v.is_unary_op then
            match UnaryOp.tryFrom v with
            | .error e => .error ("panic: " ++ e)
            | .ok op =>
              match Expr.new_unary op (some t) with
              | .error e => .error e
              | .ok expr => .ok (some expr, 1, buf1)
          else
            match Expr.new_value t with
            | .error e => .error e
            | .ok expr => .ok (some expr, 1, parsedTokens)
        | [] =>
          match Expr.new_value t with
          | .error e => .error e
          | .ok expr => .ok (some expr, 1, parsedTokens)
      | .KNil =>
        match Expr.new_value t with
        | .error e => .error e
        | .ok expr => .ok (some expr, 1, parsedTokens)
      | _ => .error "todo"

/-- `Parser::collapse`: runs `parse_expr` on the remaining tokens with
the carried-over pending buffer.  A folded expression is emitted (and
the buffer **discarded**); otherwise the nonempty buffer is carried to
the next iteration. -/
def Parser.collapse (tokens : List Token) (with_tokens : Option (List Token)) :
    Except String (Option Expr × Option (List Token) × Nat) :=
  match Parser.parse_expr tokens (with_tokens.getD []) with
  | .error e => .error e
  | .ok (some v, step, _) => .ok (some v, none, step)
  | .ok (none, step, buf) =>
    if buf.isEmpty then .error "no expr or token produced when parsing expr"
    else .ok (none, some buf, step)

/-- The loop of `Parser::parse`, indexed by a fuel bound on the number
of iterations.  In the source `begin` and `pos` both start at 0 and
advance by the same `step` on every iteration (a zero step aborts
before advancing), so they are always equal; a single cursor `b`
represents both, and `finished()` is `b > length - 1` with Rust's
`usize` subtraction on a nonempty input.  Every iteration either
aborts or advances `b` by at least 1, so `input.length + 1` iterations
always suffice; `Parser.parseLoopFuel_congr` shows the bound is
immaterial from that point on.  The final loop over `self.curr` is
dropped: `curr` is never written anywhere, so it contributes nothing
to the output. -/
def Parser.parseLoopFuel : Nat → List Token → Nat → Option (List Token) → List Expr →
    Except String (List Expr)
  | 0, _, _, _, output => .ok output
  | fuel + 1, input, b, with_tokens, output =>
    if input.length - 1 < b then .ok output
    else
      match Parser.collapse (input.drop b) with_tokens with
      | .error e => .error e
      | .ok (exprOpt, wt, step) =>
        let output' := match exprOpt with
          | some v => output ++ [v]
          | none => output
        if step = 0 then .error "?????"
        else Parser.parseLoopFuel fuel input (b + step) wt output'

/-- `Parser::parse` on a fresh parser. -/
def Parser.parse (input : List Token) : Except String (List Expr) :=
  Parser.parseLoopFuel (input.length + 1) input 0 none []

/-- The number of source **characters** a token's lexeme spans.  This
is the measure the spec's accounting invariant speaks of; it agrees
with `Token.length` except on string content, where `Token.length`
counts UTF-8 bytes. -/
def Token.lexemeCharCount : Token → Nat
  | .SingleCharacter _ => 1
  | .MultiCharTokenT _ => 2
  | .Ignored v => v.length
  | .String v => v.content.length + 2
  | .Number v =>
    v.integer_length + (match v.decimal with
      | some (l, _) => 1 + l.length
      | none => 0)
  | .Identifier v => v.content.length
  | .Keyword v => v.length

/-! ## Helper lemmas for the general claims -/

/-- Every keyword token spans at least one character. -/
lemma KeywordToken.length_pos (k : KeywordToken) : 1 ≤ k.length := by
  cases k <;> simp [KeywordToken.length]

/-- A successfully scanned number token has a nonempty integer part. -/
lemma NumberToken.from_some_integer_length {s : List Char} {t : NumberToken}
    (h : NumberToken.from_char_slice s = some t) : 1 ≤ t.integer_length := by
  cases s with
  | nil => simp [NumberToken.from_char_slice] at h
  | cons c rest =>
    unfold NumberToken.from_char_slice at h
    by_cases hc : c.isDigit
    · simp only [hc, not_true_eq_false, if_false, List.takeWhile_cons, if_pos] at h
      split at h <;> try split at h
      all_goals first
        | (injection h with h; subst h; simp)
        | (split at h <;> (injection h with h; subst h; simp))
    · simp [hc] at h

/-- The integer part never exceeds the full token length. -/
lemma NumberToken.integer_length_le_length (t : NumberToken) :
    t.integer_length ≤ t.length := by
  unfold NumberToken.length
  cases t.decimal with
  | none => simp
  | some p => simp; omega

/-- A successfully scanned identifier token has nonempty content. -/
lemma IdentifierToken.from_some_content_pos {s : List Char} {v : IdentifierToken}
    (h : IdentifierToken.from_char_slice s = some v) : 1 ≤ v.length := by
  unfold IdentifierToken.from_char_slice at h
  split at h
  · exact absurd h (by simp)
  · split at h
    · exact absurd h (by simp)
    · rename_i c0 tl heq
      split at h
      · injection h with h
        subst h
        simp only [IdentifierToken.length, strByteLen, List.map_cons, List.sum_cons]
        have := Char.utf8Size_pos c0
        omega
      · exact absurd h (by simp)

/-- A successfully scanned ignorable token spans at least one
character; in particular a comment starts with `//`, so its recorded
length is at least 1. -/
lemma IgnoredToken.from_some_span_pos {s : List Char} {v : IgnoredToken}
    (h : IgnoredToken.from_char_slice s = some v) : 1 ≤ v.length := by
  unfold IgnoredToken.from_char_slice at h
  split at h
  · cases h; simp [IgnoredToken.length]
  · cases h; simp [IgnoredToken.length]
  · cases h; simp [IgnoredToken.length]
  · rename_i heq1 heq2
    cases h
    simp only [IgnoredToken.length]
    cases s with
    | nil => simp at heq1
    | cons a s' =>
      simp only [List.head?_cons, Option.some.injEq] at heq1
      subst heq1
      rw [List.findIdx?_cons]
      cases hfi : s'.findIdx? (fun x => x = '\n') with
      | some j => simp [hfi]
      | none => simp [hfi]
  · exact absurd h (by simp)

/-- Progress: any token successfully consumed from a slice spans at
least one character, so the scan position strictly increases. -/
lemma Token.try_consume_length_pos {s : List Char} {line : Nat} {t : Token}
    (h : Token.try_consume s line = .ok (some t)) : 1 ≤ t.length := by
  unfold Token.try_consume at h
  split at h
  · exact absurd h (by simp)
  · split at h
    · simp only [Except.ok.injEq, Option.some.injEq] at h
      subst h
      exact KeywordToken.length_pos _
    · split at h
      · exact absurd h (by simp)
      · simp only [Except.ok.injEq, Option.some.injEq] at h
        subst h
        simp [Token.length, StringToken.length]
      · split at h
        · rename_i v hv
          simp only [Except.ok.injEq, Option.some.injEq] at h
          subst h
          calc 1 ≤ v.integer_length := NumberToken.from_some_integer_length hv
            _ ≤ v.length := NumberToken.integer_length_le_length v
        · split at h
          · rename_i v hv
            simp only [Except.ok.injEq, Option.some.injEq] at h
            subst h
            exact IdentifierToken.from_some_content_pos hv
          · split at h
            · simp only [Except.ok.injEq, Option.some.injEq] at h
              subst h
              simp [Token.length, MultiCharToken.length]
            · split at h
              · rename_i v hv
                simp only [Except.ok.injEq, Option.some.injEq] at h
                subst h
                simpa [Token.length] using IgnoredToken.from_some_span_pos hv
              · split at h
                · simp only [Except.ok.injEq, Option.some.injEq] at h
                  subst h
                  simp [Token.length, SingleCharToken.length]
                · exact absurd h (by simp)

/-- Any two sufficient fuel bounds give the same scan outcome. -/
lemma Lexer.tokenizeFuel_congr :
    ∀ {f1 f2 : Nat} {s : List Char} {line : Nat} {tokens : List Token}
      {diags : List AppError} {hasError : Bool},
      s.length ≤ f1 → s.length ≤ f2 →
      Lexer.tokenizeFuel f1 s line tokens diags hasError =
        Lexer.tokenizeFuel f2 s line tokens diags hasError := by
  intro f1
  induction f1 with
  | zero =>
    intro f2 s line tokens diags hasError h1 h2
    have hs : s = [] := List.length_eq_zero.mp (Nat.le_zero.mp h1)
    subst hs
    cases f2 <;> simp [Lexer.tokenizeFuel]
  | succ f1 ih =>
    intro f2 s line tokens diags hasError h1 h2
    cases s with
    | nil => cases f2 <;> simp [Lexer.tokenizeFuel]
    | cons ch rest =>
      cases f2 with
      | zero => simp at h2
      | succ f2 =>
        rcases hc : Token.try_consume (ch :: rest) line with e | ot
        · simp [Lexer.tokenizeFuel, hc]
        · cases ot with
          | none =>
            simp only [Lexer.tokenizeFuel, hc]
            exact ih (by simpa using Nat.le_of_succ_le_succ h1)
              (by simpa using Nat.le_of_succ_le_succ h2)
          | some t =>
            simp only [Lexer.tokenizeFuel, hc]
            have hlen := Token.try_consume_length_pos hc
            have hd : ((ch :: rest).drop t.length).length ≤ f1 := by
              simp only [List.length_drop, List.length_cons]
              simp only [List.length_cons] at h1
              omega
            have hd2 : ((ch :: rest).drop t.length).length ≤ f2 := by
              simp only [List.length_drop, List.length_cons]
              simp only [List.length_cons] at h2
              omega
            exact ih hd hd2

/-- Any two sufficient fuel bounds give the same parse outcome. -/
lemma Parser.parseLoopFuel_congr :
    ∀ {f1 f2 : Nat} {input : List Token} {b : Nat}
      {with_tokens : Option (List Token)} {output : List Expr},
      input.length + 1 - b ≤ f1 → input.length + 1 - b ≤ f2 →
      Parser.parseLoopFuel f1 input b with_tokens output =
        Parser.parseLoopFuel f2 input b with_tokens output := by
  intro f1
  induction f1 with
  | zero =>
    intro f2 input b with_tokens output h1 h2
    -- `input.length + 1 - b ≤ 0` forces `b > input.length`, hence both
    -- sides are the finished branch
    have hb : input.length - 1 < b := by omega
    cases f2 with
    | zero => rfl
    | succ f2 => simp [Parser.parseLoopFuel, hb]
  | succ f1 ih =>
    intro f2 input b with_tokens output h1 h2
    cases f2 with
    | zero =>
      have hb : input.length - 1 < b := by omega
      simp [Parser.parseLoopFuel, hb]
    | succ f2 =>
      by_cases hb : input.length - 1 < b
      · simp [Parser.parseLoopFuel, hb]
      · simp only [Parser.parseLoopFuel, hb, if_false]
        rcases hcol : Parser.collapse (input.drop b) with_tokens with e | ⟨exprOpt, wt, step⟩
        · rfl
        · by_cases hstep : step = 0
          · simp [hstep]
          · simp only [hstep, if_false]
            exact ih (by omega) (by omega)

/-- `takeWhile` passes over a block that satisfies the predicate. -/
lemma takeWhile_append_all {p : Char → Bool} {l1 l2 : List Char}
    (h : ∀ a ∈ l1, p a) :
    (l1 ++ l2).takeWhile p = l1 ++ l2.takeWhile p := by
  induction l1 with
  | nil => simp
  | cons a l ih =>
    have ha : p a = true := h a (by simp)
    simp [List.takeWhile_cons, ha, ih (fun x hx => h x (by simp [hx]))]

/-- No keyword begins with a double quote. -/
lemma keyword_from_quote (s : List Char) :
    KeywordToken.from_char_slice ('"' :: s) = none := by
  simp [KeywordToken.from_char_slice]

/-- A list without `"` has no index of `"`. -/
lemma findIdx?_quote_none {rest : List Char} (h : '"' ∉ rest) :
    rest.findIdx? (fun x => x = '"') = none := by
  rw [List.findIdx?_eq_none_iff]
  intro x hx
  rcases eq_or_ne x '"' with he | he
  · exact absurd (he ▸ hx) h
  · simp [he]

/-- The first `"` after a quote-free block sits right past the block. -/
lemma findIdx?_quote_append {content rest : List Char} (h : '"' ∉ content) :
    (content ++ '"' :: rest).findIdx? (fun x => x = '"') = some content.length := by
  rw [List.findIdx?_append, findIdx?_quote_none h, List.findIdx?_cons]
  simp

/-- Scanning at an opening quote with a closing quote in sight yields
the string token of the enclosed content. -/
lemma try_consume_quote_some {rest : List Char} {line v2 : Nat}
    (h : rest.findIdx? (fun x => x = '"') = some v2) :
    Token.try_consume ('"' :: rest) line = .ok (some (.String ⟨rest.take v2⟩)) := by
  unfold Token.try_consume
  simp [keyword_from_quote, StringToken.from_char_slice, h]

/-- Scanning at an opening quote with no closing quote fails with an
unterminated-string error at the current line. -/
lemma try_consume_quote_none {rest : List Char} {line : Nat}
    (h : rest.findIdx? (fun x => x = '"') = none) :
    Token.try_consume ('"' :: rest) line = .error (.UnterminatedString line) := by
  unfold Token.try_consume
  simp [keyword_from_quote, StringToken.from_char_slice, h]

/-- `Nat.toDigitsCore` never shortens its accumulator. -/
lemma toDigitsCore_len_le (b : Nat) :
    ∀ (f n : Nat) (l : List Char), l.length ≤ (Nat.toDigitsCore b f n l).length := by
  intro f
  induction f with
  | zero => intro n l; simp [Nat.toDigitsCore]
  | succ f ih =>
    intro n l
    unfold Nat.toDigitsCore
    by_cases hb : n / b = 0
    · simp [hb]
    · simp only [hb, if_false]
      calc l.length ≤ (Nat.digitChar (n % b) :: l).length := by simp
        _ ≤ _ := ih (n / b) (Nat.digitChar (n % b) :: l)

/-- The decimal rendering of a natural number is never empty. -/
lemma natRepr_length_pos (n : Nat) : 1 ≤ (Nat.repr n).length := by
  show 1 ≤ (Nat.toDigits 10 n).asString.length
  have hlen : ∀ l : List Char, l.asString.length = l.length := fun l => rfl
  rw [hlen]
  unfold Nat.toDigits
  unfold Nat.toDigitsCore
  by_cases hb : n / 10 = 0
  · simp [hb]
  · simp only [hb, if_false]
    calc 1 = [Nat.digitChar (n % 10)].length := by simp
      _ ≤ _ := toDigitsCore_len_le 10 n (n / 10) [Nat.digitChar (n % 10)]

/-! ## Claims -/

/-- C1: For the token sequence produced by tokenizing `(1 + 2) * 3`,
feeding it to the parser is claimed to print `(* (group (+ 1.0 2.0)) 3.0)`.
The tokens are produced as expected, but `Parser::parse_expr` parses
only a single unit inside a grouping and then demands an immediate
`)` (`tokens.get(1 + step)`), so the parse aborts with the error
`paren not ended` and prints nothing. -/
theorem claim_C1_group_multiplication_parse_fails :
    (Lexer.tokenize "(1 + 2) * 3".toList).tokens =
      [.SingleCharacter .LeftParen, .Number ⟨1, 1, none⟩, .SingleCharacter .Plus,
       .Number ⟨2, 1, none⟩, .SingleCharacter .RightParen, .SingleCharacter .Star,
       .Number ⟨3, 1, none⟩] ∧
    Parser.parse (Lexer.tokenize "(1 + 2) * 3".toList).tokens =
      .error "paren not ended" := by
  exact ⟨rfl, rfl⟩

/-- C2: Tokenizing `classable` is claimed to yield one identifier
token `classable`.  `KeywordToken::from_char_slice` is tried before
the identifier scanner and compares only the **prefix** of the slice,
so the scan actually yields the keyword `class` followed by the
identifier `able`. -/
theorem claim_C2_classable_splits_into_keyword_and_identifier :
    Lexer.tokenize "classable".toList =
      ⟨[.Keyword .KClass, .Identifier ⟨"able".toList⟩], [], false, none⟩ ∧
    (Lexer.tokenize "classable".toList).tokens ≠
      [.Identifier ⟨"classable".toList⟩] := by
  exact ⟨rfl, by decide⟩

/-- C3: The sum of lexeme lengths plus unexpected-character skips is
claimed to equal the input length for every input.  `StringToken::length`
returns `self.0.len() + 2`, a UTF-8 **byte** count, while the scan
position counts characters, so the input `"é"x` (4 characters) is
consumed as a single 3-character string lexeme whose reported length 4
over-advances the cursor: the final `x` is skipped without any token
or diagnostic, and the accounted total is 3 ≠ 4. -/
theorem claim_C3_character_accounting_fails_on_multibyte :
    Lexer.tokenize ['"', 'é', '"', 'x'] = ⟨[.String ⟨['é']⟩], [], false, none⟩ ∧
    ((Lexer.tokenize ['"', 'é', '"', 'x']).tokens.map Token.lexemeCharCount).sum +
      (Lexer.tokenize ['"', 'é', '"', 'x']).diags.length = 3 ∧
    (['"', 'é', '"', 'x'] : List Char).length = 4 := by
  exact ⟨rfl, rfl, rfl⟩

/-- C4: The token sequence of `!!true` is claimed to fold to
`(! (! true))`.  When the literal closes the innermost pending unary
operator, `Parser::collapse` emits the folded expression and
**discards** the rest of the pending buffer, so the outer `!` is
silently dropped and the parse yields the single expression printed
`(! true)`. -/
theorem claim_C4_double_negation_drops_outer_operator :
    (Lexer.tokenize "!!true".toList).tokens =
      [.SingleCharacter .Bang, .SingleCharacter .Bang, .Keyword .KTrue] ∧
    Parser.parse [.SingleCharacter .Bang, .SingleCharacter .Bang, .Keyword .KTrue] =
      .ok [.Unary .LogicalNot (.Value (.Bool true))] ∧
    (Expr.Unary .LogicalNot (.Value (.Bool true))).literal = "(! true)" := by
  exact ⟨rfl, rfl, rfl⟩

/-- C5: An opening `"` with no closing `"` before end of input makes
`tokenize` return an unterminated-string error carrying the line
counter at the opening quote, stop producing further tokens, and keep
every token already in the lexer's token list. -/
theorem claim_C5_unterminated_string_fatal (fuel : Nat) (rest : List Char)
    (line : Nat) (tokens : List Token) (diags : List AppError) (hasError : Bool)
    (h : '"' ∉ rest) :
    Lexer.tokenizeFuel (fuel + 1) ('"' :: rest) line tokens diags hasError =
      ⟨tokens, diags, hasError, some (.UnterminatedString line)⟩ := by
  have hc : Token.try_consume ('"' :: rest) line = .error (.UnterminatedString line) :=
    try_consume_quote_none (findIdx?_quote_none h)
  simp [Lexer.tokenizeFuel, hc]

/-- Witness for C5 at the input `abc "xyz`: the scan state after the
identifier `abc` hits the unterminated string on line 1 and keeps the
identifier token. -/
theorem claim_C5_witness :
    ('"' : Char) ∉ "xyz".toList ∧
    Lexer.tokenizeFuel 4 ('"' :: "xyz".toList) 1
        [.Identifier ⟨"abc".toList⟩] [] false =
      ⟨[.Identifier ⟨"abc".toList⟩], [], false, some (.UnterminatedString 1)⟩ :=
  ⟨by decide,
   claim_C5_unterminated_string_fatal 3 "xyz".toList 1
     [.Identifier ⟨"abc".toList⟩] [] false (by decide)⟩

/-- C6: A character matching no category produces a diagnostic
carrying the current line and that character, sets the error flag,
advances exactly one character, and scanning continues on the rest of
the input with an otherwise unchanged state — so later tokens come out
exactly as they would without the offending character, and several
diagnostics can pile up in `diags`. -/
theorem claim_C6_unexpected_char_recovery (fuel : Nat) (c : Char)
    (rest : List Char) (line : Nat) (tokens : List Token)
    (diags : List AppError) (hasError : Bool)
    (h : Token.try_consume (c :: rest) line = .ok none) :
    Lexer.tokenizeFuel (fuel + 1) (c :: rest) line tokens diags hasError =
      Lexer.tokenizeFuel fuel rest line tokens
        (diags ++ [.UnexpectedCharE line (String.mk [c])]) true := by
  simp [Lexer.tokenizeFuel, h]

/-- Witness for C6 at `@var`: the `@` matches no category, yields the
line-1 diagnostic, and the scan continues on `var`. -/
theorem claim_C6_witness :
    Token.try_consume ('@' :: "var".toList) 1 = .ok none ∧
    Lexer.tokenizeFuel 4 ('@' :: "var".toList) 1 [] [] false =
      Lexer.tokenizeFuel 3 "var".toList 1 []
        [.UnexpectedCharE 1 (String.mk ['@'])] true :=
  ⟨rfl, claim_C6_unexpected_char_recovery 3 '@' "var".toList 1 [] [] false rfl⟩

/-- C9: The tokenizer terminates because it makes strict progress:
every token successfully consumed from a character slice spans at
least one character (and the unexpected-character branch advances by
exactly one), so the scan position strictly increases each iteration
until the end of the input. -/
theorem claim_C9_tokenizer_progress (s : List Char) (line : Nat) (t : Token)
    (h : Token.try_consume s line = .ok (some t)) : 1 ≤ t.length :=
  Token.try_consume_length_pos h

/-- Witness for C9 at the keyword slice `var`. -/
theorem claim_C9_witness :
    Token.try_consume "var".toList 1 = .ok (some (.Keyword .KVar)) ∧
    1 ≤ (Token.Keyword .KVar).length :=
  ⟨rfl, claim_C9_tokenizer_progress "var".toList 1 (.Keyword .KVar) rfl⟩

/-- C10: A line break inside a string literal is consumed as string
content and leaves the line counter untouched: consuming a terminated
string passes `line` through unchanged no matter how many `\n` its
content holds, so diagnostics for later characters report a line
number lower than the source line by the number of enclosed breaks.
Concretely, for `"a\nb"@` the `@` sits after one enclosed line break
(source line 2) but its diagnostic reports line 1. -/
theorem claim_C10_string_linebreaks_skip_line_counter :
    (∀ (fuel : Nat) (content rest : List Char) (line : Nat) (tokens : List Token)
       (diags : List AppError) (hasError : Bool), '"' ∉ content →
       Lexer.tokenizeFuel (fuel + 1) ('"' :: (content ++ '"' :: rest)) line tokens diags hasError =
         Lexer.tokenizeFuel fuel (('"' :: (content ++ '"' :: rest)).drop (strByteLen content + 2))
           line (tokens ++ [.String ⟨content⟩]) diags hasError) ∧
    (Lexer.tokenize ['"', 'a', '\n', 'b', '"', '@'] =
      ⟨[.String ⟨['a', '\n', 'b']⟩], [.UnexpectedCharE 1 (String.mk ['@'])], true, none⟩ ∧
     (['"', 'a', '\n', 'b', '"', '@'].take 5).count '\n' = 1) := by
  constructor
  · intro fuel content rest line tokens diags hasError h
    have hc : Token.try_consume ('"' :: (content ++ '"' :: rest)) line =
        .ok (some (.String ⟨(content ++ '"' :: rest).take content.length⟩)) :=
      try_consume_quote_some (findIdx?_quote_append h)
    rw [List.take_left] at hc
    simp [Lexer.tokenizeFuel, hc, Token.ignored, Token.length, StringToken.length]
  · exact ⟨rfl, by decide⟩

/-- Witness for C10: consuming the string `"a\nb"` leaves the line
counter at 1 even though the content holds a line break. -/
theorem claim_C10_witness :
    ('"' : Char) ∉ ['a', '\n', 'b'] ∧
    Lexer.tokenizeFuel 6 ('"' :: (['a', '\n', 'b'] ++ '"' :: ['@'])) 1 [] [] false =
      Lexer.tokenizeFuel 5
        (('"' :: (['a', '\n', 'b'] ++ '"' :: ['@'])).drop (strByteLen ['a', '\n', 'b'] + 2))
        1 [.String ⟨['a', '\n', 'b']⟩] [] false :=
  ⟨by decide,
   claim_C10_string_linebreaks_skip_line_counter.1 5 ['a', '\n', 'b'] ['@'] 1 [] [] false
     (by decide)⟩

/-- C7: A number literal never consumes a trailing `.` that is not
followed by a digit: scanning a digit block followed by `.` and a
non-digit (or end of input) yields a number token with no decimal part
whose length is exactly the digit block, and tokenizing `123.`
produces the number token `123` followed by a separate DOT token. -/
theorem claim_C7_number_stops_before_trailing_dot :
    (∀ (ds rest : List Char), ds ≠ [] → (∀ d ∈ ds, d.isDigit) →
       (∀ c, rest.head? = some c → c.isDigit = false) →
       NumberToken.from_char_slice (ds ++ '.' :: rest) =
         some ⟨u32DigitsFold (ds.map charToDigit), ds.length, none⟩) ∧
    Lexer.tokenize "123.".toList =
      ⟨[.Number ⟨123, 3, none⟩, .SingleCharacter .Dot], [], false, none⟩ := by
  constructor
  · intro ds rest hne hdig hnd
    obtain ⟨d, ds', rfl⟩ : ∃ d ds', ds = d :: ds' := by
      cases ds with
      | nil => exact absurd rfl hne
      | cons d ds' => exact ⟨d, ds', rfl⟩
    have hd : d.isDigit = true := hdig d (by simp)
    have ht : (d :: (ds' ++ '.' :: rest)).takeWhile Char.isDigit = d :: ds' := by
      rw [show d :: (ds' ++ '.' :: rest) = (d :: ds') ++ '.' :: rest from rfl]
      rw [takeWhile_append_all hdig]
      simp [List.takeWhile_cons]
    have hdrop : (d :: (ds' ++ '.' :: rest)).drop (ds'.length + 1) = '.' :: rest := by
      rw [List.drop_succ_cons]
      exact List.drop_left _ _
    have hrest : rest.takeWhile Char.isDigit = [] := by
      cases rest with
      | nil => rfl
      | cons r rs =>
        have hr := hnd r rfl
        simp [List.takeWhile_cons, hr]
    unfold NumberToken.from_char_slice
    simp only [List.cons_append]
    simp only [ht, hd, not_true_eq_false, if_false, List.length_map, List.length_cons, hdrop,
      List.head?_cons, List.drop_succ_cons, List.drop_zero, hrest, List.map_nil,
      List.isEmpty_nil, if_true, Option.some.injEq]
  · exact rfl

/-- Witness for C7 at the digit block `123` with nothing after the
dot. -/
theorem claim_C7_witness :
    (['1', '2', '3'] : List Char) ≠ [] ∧
    NumberToken.from_char_slice (['1', '2', '3'] ++ '.' :: []) =
      some ⟨123, 3, none⟩ := by
  refine ⟨by decide, ?_⟩
  exact claim_C7_number_stops_before_trailing_dot.1 ['1', '2', '3'] []
    (by decide) (by decide) (by intro c hc; cases hc)

/-- C8: The printer renders Binary as `(<op> <left> <right>)`, Unary
as `(<op> <operand>)`, Grouping as `(group <inner>)`, strings as their
unquoted content, booleans as `true`/`false`, `nil` as `nil`, and
every number with at least one fractional digit after the dot — in
particular the number token scanned from `3` prints `3.0`. -/
theorem claim_C8_printer_rendering :
    (∀ (op : BinaryOp) (lhs rhs : Expr),
       (Expr.Binary op lhs rhs).literal =
         "(" ++ op.literal ++ " " ++ lhs.literal ++ " " ++ rhs.literal ++ ")") ∧
    (∀ (op : UnaryOp) (operand : Expr),
       (Expr.Unary op operand).literal =
         "(" ++ op.literal ++ " " ++ operand.literal ++ ")") ∧
    (∀ e : Expr, (Expr.Scope .Paren (some e)).literal = "(group " ++ e.literal ++ ")") ∧
    (∀ st : StringToken, ∃ v : Value,
       Value.tryFrom (.String st) = .ok v ∧ v.literal = String.mk st.content) ∧
    (Value.tryFrom (.Keyword .KTrue) = .ok (.Bool true) ∧
     (Value.Bool true).literal = "true" ∧
     Value.tryFrom (.Keyword .KFalse) = .ok (.Bool false) ∧
     (Value.Bool false).literal = "false" ∧
     Value.tryFrom (.Keyword .KNil) = .ok .Nil ∧
     Value.Nil.literal = "nil") ∧
    (∀ t : NumberToken, ∃ frac : String,
       (Value.Number t.info_string).literal = Nat.repr t.integer ++ "." ++ frac ∧
       1 ≤ frac.length) ∧
    (NumberToken.from_char_slice ['3'] = some ⟨3, 1, none⟩ ∧
     (Value.Number (NumberToken.info_string ⟨3, 1, none⟩)).literal = "3.0") := by
  refine ⟨fun op lhs rhs => rfl, fun op operand => rfl, fun e => rfl,
    fun st => ⟨.StringV (String.mk st.content) (String.mk st.content), rfl, rfl⟩,
    ⟨rfl, rfl, rfl, rfl, rfl, rfl⟩, ?_, rfl, rfl⟩
  intro t
  cases hd : t.decimal with
  | none =>
    refine ⟨"0", ?_, by decide⟩
    simp only [Value.literal, NumberToken.info_string, NumberToken.info, hd, Option.getD_some]
    rw [String.append_assoc, show ("." ++ "0" : String) = ".0" from rfl]
  | some p =>
    exact ⟨Nat.repr p.2, by
      simp only [Value.literal, NumberToken.info_string, NumberToken.info, hd,
        Option.getD_some], natRepr_length_pos p.2⟩
